import Mathlib

/-!
A verification development for the address-resolution network interface in
`src/network_interface.cc` / `src/network_interface.hh`.

The interface keeps four stores: an ARP table (resolution cache) mapping an
IPv4 address to an Ethernet address with a remaining TTL, a map of IPv4
addresses with an outstanding ARP request (each with a remaining suppression
timer), a list of datagrams blocked on pending resolution, and a FIFO of
outbound Ethernet frames.  The two `std::unordered_map`s are modelled as
association lists with unique keys; serialization of datagrams and ARP
messages is modelled by an opaque payload type whose parsers succeed exactly
on payloads produced by the corresponding serializer.
-/

/-- Association-list model of `std::unordered_map` keyed by raw 32-bit IPv4
addresses (represented as `Nat`).  `mapLookup` models `m.find(k)`. -/
def mapLookup {α : Type} : List (Nat × α) → Nat → Option α
  | [], _ => none
  | (k', v) :: rest, k => if k' = k then some v else mapLookup rest k

/-- Models `m.erase(k)`: removes every binding of `k` (an `unordered_map`
holds at most one). -/
def mapErase {α : Type} (m : List (Nat × α)) (k : Nat) : List (Nat × α) :=
  m.filter (fun p => !(p.1 == k))

/-- Models the assignment `m[k] = v`: afterwards `k` is bound to `v` and all
other keys are bound as before. -/
def mapInsert {α : Type} (m : List (Nat × α)) (k : Nat) (v : α) : List (Nat × α) :=
  (k, v) :: mapErase m k

/-- The key set of a map. -/
def mapKeys {α : Type} (m : List (Nat × α)) : List Nat := m.map Prod.fst

/-- Opaque model of a parsed IPv4 datagram (`InternetDatagram`); its contents
never influence the interface's control flow. -/
abbrev InternetDatagram := Nat

/-- Model of the `Address` class: the interface only ever uses its raw 32-bit
value `ipv4_numeric()`. -/
structure Address where
  ipv4_numeric : Nat
deriving DecidableEq, Repr

/-- ARP message (`arp_message.hh` collaborator), with link addresses and the
opcode as plain numbers. -/
structure ARPMessage where
  opcode : Nat
  sender_ethernet_address : Nat
  sender_ip_address : Nat
  target_ethernet_address : Nat
  target_ip_address : Nat
deriving DecidableEq, Repr

def ARPMessage.OPCODE_REQUEST : Nat := 1

def ARPMessage.OPCODE_REPLY : Nat := 2

/-- Model of a frame payload (the serialized bytes).  Serialization is
modelled by the constructors; each parser succeeds exactly on a payload
produced by the corresponding serializer.  `junk` stands for any byte string
produced by neither serializer (a malformed payload). -/
inductive Payload where
  | ipv4 (d : InternetDatagram)
  | arp (m : ARPMessage)
  | junk (bytes : Nat)
deriving DecidableEq, Repr

/-- `InternetDatagram::parse`: succeeds exactly on serialized datagrams. -/
def parse_internet_datagram : Payload → Option InternetDatagram
  | .ipv4 d => some d
  | _ => none

/-- `ARPMessage::parse`: succeeds exactly on serialized ARP messages. -/
def parse_arp_message : Payload → Option ARPMessage
  | .arp m => some m
  | _ => none

/-- Ethernet frame header (`ethernet_frame.hh` collaborator). -/
structure EthernetHeader where
  dst : Nat
  src : Nat
  type : Nat
deriving DecidableEq, Repr

def EthernetHeader.TYPE_IPv4 : Nat := 2048

def EthernetHeader.TYPE_ARP : Nat := 2054

/-- The all-ones broadcast Ethernet address. -/
def ETHERNET_BROADCAST : Nat := 281474976710655

structure EthernetFrame where
  header : EthernetHeader
  payload : Payload
deriving DecidableEq, Repr

/-- One entry of the ARP table (`struct ARP_Entry`). -/
structure ARP_Entry where
  eth_addr : Nat
  ttl : Nat
deriving DecidableEq, Repr

/-- Default TTL for ARP table entries (30 seconds). -/
def arp_entry_default_ttl_ : Nat := 30000

/-- Default TTL while waiting for an ARP reply (5 seconds). -/
def arp_response_default_ttl_ : Nat := 5000

/-- The state of `class NetworkInterface`: its two addresses and the four
mutable stores. -/
structure NetworkInterface where
  ethernet_address_ : Nat
  ip_address_ : Address
  arp_table_ : List (Nat × ARP_Entry)
  waiting_arp_response_ip_addr_ : List (Nat × Nat)
  waiting_arp_internet_datagrams_ : List (Address × InternetDatagram)
  frames_out : List EthernetFrame
deriving DecidableEq, Repr

/-- The constructor `NetworkInterface(ethernet_address, ip_address)`: all four
stores start empty. -/
def mkInterface (ethernet_address : Nat) (ip_address : Address) : NetworkInterface :=
  { ethernet_address_ := ethernet_address
    ip_address_ := ip_address
    arp_table_ := []
    waiting_arp_response_ip_addr_ := []
    waiting_arp_internet_datagrams_ := []
    frames_out := [] }

/-- `NetworkInterface::construct_arp_message`. -/
def construct_arp_message (nif : NetworkInterface) (opcode : Nat)
    (target_eth_addr : Nat) (target_ip_addr : Nat) : ARPMessage :=
  { opcode := opcode
    sender_ethernet_address := nif.ethernet_address_
    sender_ip_address := nif.ip_address_.ipv4_numeric
    target_ethernet_address := target_eth_addr
    target_ip_address := target_ip_addr }

/-- `NetworkInterface::construct_ethernet_frame`. -/
def construct_ethernet_frame (nif : NetworkInterface) (dst_addr : Nat)
    (type : Nat) (payload : Payload) : EthernetFrame :=
  { header := { dst := dst_addr, src := nif.ethernet_address_, type := type }
    payload := payload }

/-- `NetworkInterface::send_datagram`.  On a cache hit it pushes one IPv4
frame to the cached Ethernet address; on a miss it broadcasts an ARP request
(unless one is already pending for that address) and appends the datagram to
the blocked list. -/
def send_datagram (nif : NetworkInterface) (dgram : InternetDatagram)
    (next_hop : Address) : NetworkInterface :=
  let next_hop_ip := next_hop.ipv4_numeric
  match mapLookup nif.arp_table_ next_hop_ip with
  | none =>
    let nif1 :=
      if mapLookup nif.waiting_arp_response_ip_addr_ next_hop_ip = none then
        let arp_request :=
          construct_arp_message nif ARPMessage.OPCODE_REQUEST 0 next_hop_ip
        let eth_frame :=
          construct_ethernet_frame nif ETHERNET_BROADCAST EthernetHeader.TYPE_ARP
            (Payload.arp arp_request)
        { nif with
          frames_out := nif.frames_out ++ [eth_frame]
          waiting_arp_response_ip_addr_ :=
            mapInsert nif.waiting_arp_response_ip_addr_ next_hop_ip
              arp_response_default_ttl_ }
      else nif
    { nif1 with
      waiting_arp_internet_datagrams_ :=
        nif1.waiting_arp_internet_datagrams_ ++ [(next_hop, dgram)] }
  | some entry =>
    { nif with
      frames_out := nif.frames_out ++
        [construct_ethernet_frame nif entry.eth_addr EthernetHeader.TYPE_IPv4
          (Payload.ipv4 dgram)] }

/-- The erase-while-iterating loop over `waiting_arp_internet_datagrams_` in
`handle_arp_frame`, made explicit.  `front` holds the already-visited entries
that were kept; the carried state's blocked list holds the entries from the
iterator position to the end (datagrams appended by `send_datagram` land at
the tail, exactly as `emplace_back` does in the source, and would be visited
by the same loop).  `fuel` bounds the number of iterations; the caller passes
the current list length, which suffices because the loop body's re-send
always hits the ARP entry inserted just before the loop and therefore never
appends. -/
def drain_go (fuel : Nat) (src_ip : Nat)
    (front : List (Address × InternetDatagram)) (nif : NetworkInterface) :
    NetworkInterface :=
  match fuel with
  | 0 => { nif with
           waiting_arp_internet_datagrams_ :=
             front ++ nif.waiting_arp_internet_datagrams_ }
  | fuel' + 1 =>
    match nif.waiting_arp_internet_datagrams_ with
    | [] => { nif with waiting_arp_internet_datagrams_ := front }
    | (a, d) :: rest =>
      if a.ipv4_numeric = src_ip then
        drain_go fuel' src_ip front
          (send_datagram { nif with waiting_arp_internet_datagrams_ := rest } d a)
      else
        drain_go fuel' src_ip (front ++ [(a, d)])
          { nif with waiting_arp_internet_datagrams_ := rest }

/-- `NetworkInterface::handle_IPv4_frame`: parse the payload as a datagram,
returning it on success. -/
def handle_IPv4_frame (frame : EthernetFrame) : Option InternetDatagram :=
  parse_internet_datagram frame.payload

/-- `NetworkInterface::handle_arp_frame`. -/
def handle_arp_frame (nif : NetworkInterface) (frame : EthernetFrame) :
    NetworkInterface × Option InternetDatagram :=
  match parse_arp_message frame.payload with
  | none => (nif, none)
  | some arp_msg =>
    let src_ip_addr := arp_msg.sender_ip_address
    let dst_ip_addr := arp_msg.target_ip_address
    let src_eth_addr := arp_msg.sender_ethernet_address
    let dst_eth_addr := arp_msg.target_ethernet_address
    let is_valid_arp_request :=
      arp_msg.opcode = ARPMessage.OPCODE_REQUEST ∧
        dst_ip_addr = nif.ip_address_.ipv4_numeric
    let is_valid_arp_reply :=
      arp_msg.opcode = ARPMessage.OPCODE_REPLY ∧
        dst_eth_addr = nif.ethernet_address_
    let nif1 :=
      if is_valid_arp_request then
        { nif with
          frames_out := nif.frames_out ++
            [construct_ethernet_frame nif src_eth_addr EthernetHeader.TYPE_ARP
              (Payload.arp
                (construct_arp_message nif ARPMessage.OPCODE_REPLY src_eth_addr
                  src_ip_addr))] }
      else nif
    if is_valid_arp_request ∨ is_valid_arp_reply then
      let nif2 :=
        { nif1 with
          arp_table_ := mapInsert nif1.arp_table_ src_ip_addr
            ⟨src_eth_addr, arp_entry_default_ttl_⟩ }
      let nif3 :=
        drain_go nif2.waiting_arp_internet_datagrams_.length src_ip_addr [] nif2
      let nif4 :=
        { nif3 with
          waiting_arp_response_ip_addr_ :=
            mapErase nif3.waiting_arp_response_ip_addr_ src_ip_addr }
      (nif4, none)
    else
      (nif1, none)

/-- `NetworkInterface::recv_frame`: filter on the destination address, then
dispatch on the frame type. -/
def recv_frame (nif : NetworkInterface) (frame : EthernetFrame) :
    NetworkInterface × Option InternetDatagram :=
  if frame.header.dst ≠ nif.ethernet_address_ ∧
      frame.header.dst ≠ ETHERNET_BROADCAST then
    (nif, none)
  else if frame.header.type = EthernetHeader.TYPE_IPv4 then
    (nif, handle_IPv4_frame frame)
  else if frame.header.type = EthernetHeader.TYPE_ARP then
    handle_arp_frame nif frame
  else
    (nif, none)

/-- `NetworkInterface::tick`: age the ARP table (evicting entries whose TTL
has elapsed), age the pending-request map, and for every expired pending
request drop the blocked datagrams waiting on it. -/
def tick (nif : NetworkInterface) (ms_since_last_tick : Nat) : NetworkInterface :=
  let arp_table' :=
    (nif.arp_table_.filter (fun p => decide (ms_since_last_tick < p.2.ttl))).map
      (fun p => (p.1, { p.2 with ttl := p.2.ttl - ms_since_last_tick }))
  let expired_ips :=
    (nif.waiting_arp_response_ip_addr_.filter
      (fun p => decide (p.2 ≤ ms_since_last_tick))).map Prod.fst
  let waiting_resp' :=
    (nif.waiting_arp_response_ip_addr_.filter
      (fun p => decide (ms_since_last_tick < p.2))).map
      (fun p => (p.1, p.2 - ms_since_last_tick))
  let waiting_dgrams' :=
    nif.waiting_arp_internet_datagrams_.filter
      (fun p => !(expired_ips.contains p.1.ipv4_numeric))
  { nif with
    arp_table_ := arp_table'
    waiting_arp_response_ip_addr_ := waiting_resp'
    waiting_arp_internet_datagrams_ := waiting_dgrams' }

/-- `NetworkInterface::maybe_send`: pop the oldest outbound frame, if any. -/
def maybe_send (nif : NetworkInterface) : NetworkInterface × Option EthernetFrame :=
  match nif.frames_out with
  | [] => (nif, none)
  | f :: rest => ({ nif with frames_out := rest }, some f)

/-- The broadcast ARP-request frame that a cache-missing `send_datagram`
enqueues for `next_hop_ip` (the "discovery request" of the specification). -/
def discovery_request_frame (nif : NetworkInterface) (next_hop_ip : Nat) :
    EthernetFrame :=
  construct_ethernet_frame nif ETHERNET_BROADCAST EthernetHeader.TYPE_ARP
    (Payload.arp (construct_arp_message nif ARPMessage.OPCODE_REQUEST 0 next_hop_ip))

/-- One step of a client-driven episode against a fixed next hop: either the
owning stack submits another datagram for that next hop (`send`), or time
passes (`wait`, an `advance_time` call). -/
inductive SendEvent where
  | send (d : InternetDatagram)
  | wait (ms : Nat)
deriving DecidableEq, Repr

/-- Run an episode: `send d` invokes `send_datagram` with the fixed next hop
and `wait ms` invokes `tick ms`. -/
def runEvents (nif : NetworkInterface) (next_hop : Address) :
    List SendEvent → NetworkInterface
  | [] => nif
  | SendEvent.send d :: rest =>
    runEvents (send_datagram nif d next_hop) next_hop rest
  | SendEvent.wait ms :: rest => runEvents (tick nif ms) next_hop rest

/-- The datagrams submitted during an episode, in order. -/
def eventDatagrams : List SendEvent → List InternetDatagram
  | [] => []
  | SendEvent.send d :: rest => d :: eventDatagrams rest
  | SendEvent.wait _ :: rest => eventDatagrams rest

/-- The episode stays within a suppression window with `budget` ms left:
every wait is strictly shorter than the time remaining on the pending
request's timer, so the request never expires during the episode — in
particular every send occurs before the timer expires (`tick` erases a
pending entry exactly when its remaining time is at most the elapsed
time, so strict inequality is the faithful "before expiry" condition). -/
def within_window (budget : Nat) : List SendEvent → Prop
  | [] => True
  | SendEvent.send _ :: rest => within_window budget rest
  | SendEvent.wait ms :: rest => ms < budget ∧ within_window (budget - ms) rest

/-- States reachable from a freshly constructed interface by the four public
operations. -/
inductive Reachable : NetworkInterface → Prop where
  | construct (eth : Nat) (ip : Address) : Reachable (mkInterface eth ip)
  | send {nif : NetworkInterface} (d : InternetDatagram) (next_hop : Address) :
      Reachable nif → Reachable (send_datagram nif d next_hop)
  | recv {nif : NetworkInterface} (f : EthernetFrame) :
      Reachable nif → Reachable (recv_frame nif f).1
  | tick {nif : NetworkInterface} (ms : Nat) :
      Reachable nif → Reachable (tick nif ms)
  | poll {nif : NetworkInterface} :
      Reachable nif → Reachable (maybe_send nif).1

theorem mapLookup_eq_none_iff {α : Type} (m : List (Nat × α)) (k : Nat) :
    mapLookup m k = none ↔ k ∉ mapKeys m := by
  induction m with
  | nil => simp [mapLookup, mapKeys]
  | cons p rest ih =>
    obtain ⟨k', v⟩ := p
    by_cases h : k' = k
    · subst h
      simp [mapLookup, mapKeys]
    · simp [mapLookup, mapKeys, h, ih, Ne.symm h]

theorem mem_of_mapLookup_eq_some {α : Type} {m : List (Nat × α)} {k : Nat} {v : α}
    (h : mapLookup m k = some v) : (k, v) ∈ m := by
  induction m with
  | nil => simp [mapLookup] at h
  | cons p rest ih =>
    obtain ⟨k', v'⟩ := p
    by_cases hk : k' = k
    · subst hk
      simp [mapLookup] at h
      simp [h]
    · simp [mapLookup, hk] at h
      exact List.mem_cons_of_mem _ (ih h)

theorem mem_keys_of_mapLookup {α : Type} {m : List (Nat × α)} {k : Nat} {v : α}
    (h : mapLookup m k = some v) : k ∈ mapKeys m := by
  by_contra hk
  rw [← mapLookup_eq_none_iff] at hk
  rw [h] at hk
  exact Option.noConfusion hk

theorem mapLookup_erase_ne {α : Type} (m : List (Nat × α)) {k k' : Nat}
    (h : k' ≠ k) : mapLookup (mapErase m k) k' = mapLookup m k' := by
  induction m with
  | nil => simp [mapErase]
  | cons p rest ih =>
    obtain ⟨k0, v0⟩ := p
    by_cases hk : k0 = k
    · subst hk
      simp [mapErase, mapLookup, Ne.symm h] at *
      exact ih
    · simp only [mapErase, List.filter_cons] at *
      simp [hk, mapLookup, ih]

theorem mapLookup_erase_self {α : Type} (m : List (Nat × α)) (k : Nat) :
    mapLookup (mapErase m k) k = none := by
  induction m with
  | nil => simp [mapErase, mapLookup]
  | cons p rest ih =>
    obtain ⟨k0, v0⟩ := p
    by_cases hk : k0 = k
    · subst hk
      simpa [mapErase] using ih
    · simp only [mapErase, List.filter_cons] at *
      simp [hk, mapLookup, ih]

theorem mapLookup_insert_self {α : Type} (m : List (Nat × α)) (k : Nat) (v : α) :
    mapLookup (mapInsert m k v) k = some v := by
  simp [mapInsert, mapLookup]

theorem mapLookup_insert_ne {α : Type} (m : List (Nat × α)) {k k' : Nat} (v : α)
    (h : k' ≠ k) : mapLookup (mapInsert m k v) k' = mapLookup m k' := by
  simp [mapInsert, mapLookup, Ne.symm h, mapLookup_erase_ne m h]

theorem mem_mapKeys_erase {α : Type} (m : List (Nat × α)) (k a : Nat) :
    a ∈ mapKeys (mapErase m k) ↔ a ∈ mapKeys m ∧ a ≠ k := by
  simp only [mapErase, mapKeys, List.mem_map, List.mem_filter]
  constructor
  · rintro ⟨p, ⟨hp, hne⟩, rfl⟩
    simp only [Bool.not_eq_true', beq_eq_false_iff_ne, ne_eq] at hne
    exact ⟨⟨p, hp, rfl⟩, hne⟩
  · rintro ⟨⟨p, hp, rfl⟩, hne⟩
    exact ⟨p, ⟨hp, by simpa using hne⟩, rfl⟩

theorem mem_mapKeys_insert {α : Type} (m : List (Nat × α)) (k : Nat) (v : α) (a : Nat) :
    a ∈ mapKeys (mapInsert m k v) ↔ a = k ∨ a ∈ mapKeys m := by
  simp only [mapInsert, mapKeys, List.map_cons, List.mem_cons]
  rw [show (List.map Prod.fst (mapErase m k)) = mapKeys (mapErase m k) from rfl]
  rw [mem_mapKeys_erase]
  constructor
  · rintro (rfl | ⟨hm, _⟩)
    · exact Or.inl rfl
    · exact Or.inr hm
  · rintro (rfl | hm)
    · exact Or.inl rfl
    · by_cases hk : a = k
      · exact Or.inl hk
      · exact Or.inr ⟨hm, hk⟩

theorem mapLookup_filterMap_none {α : Type} (alive : α → Bool) (age : α → α)
    {m : List (Nat × α)} {k : Nat} (h : mapLookup m k = none) :
    mapLookup ((m.filter fun p => alive p.2).map fun p => (p.1, age p.2)) k = none := by
  induction m with
  | nil => simp [mapLookup]
  | cons p rest ih =>
    obtain ⟨k0, v0⟩ := p
    by_cases hk : k0 = k
    · subst hk
      simp [mapLookup] at h
    · simp only [mapLookup, if_neg hk] at h
      by_cases ha : alive v0
      · simp [List.filter_cons, ha, mapLookup, hk, ih h]
      · simp [List.filter_cons, ha, ih h]

theorem mapLookup_filterMap_some {α : Type} (alive : α → Bool) (age : α → α)
    {m : List (Nat × α)} {k : Nat} {v : α} (hnd : (mapKeys m).Nodup)
    (h : mapLookup m k = some v) :
    mapLookup ((m.filter fun p => alive p.2).map fun p => (p.1, age p.2)) k =
      if alive v then some (age v) else none := by
  induction m with
  | nil => simp [mapLookup] at h
  | cons p rest ih =>
    obtain ⟨k0, v0⟩ := p
    simp only [mapKeys, List.map_cons, List.nodup_cons] at hnd
    by_cases hk : k0 = k
    · subst hk
      simp [mapLookup] at h
      subst h
      have hrest : mapLookup rest k0 = none := by
        rw [mapLookup_eq_none_iff]
        exact hnd.1
      by_cases ha : alive v0
      · simp [List.filter_cons, ha, mapLookup]
      · simp [List.filter_cons, ha, mapLookup_filterMap_none alive age hrest]
    · simp only [mapLookup, if_neg hk] at h
      by_cases ha : alive v0
      · simp only [List.filter_cons, ha, List.map_cons, mapLookup, if_neg hk]
        exact ih hnd.2 h
      · simp only [List.filter_cons, ha, Bool.false_eq_true, if_false]
        exact ih hnd.2 h

theorem mem_keys_filterMap {α : Type} (alive : α → Bool) (age : α → α)
    {m : List (Nat × α)} {a : Nat}
    (h : a ∈ mapKeys ((m.filter fun p => alive p.2).map fun p => (p.1, age p.2))) :
    a ∈ mapKeys m := by
  by_contra hm
  rw [← mapLookup_eq_none_iff] at hm
  have := mapLookup_filterMap_none alive age hm
  rw [mapLookup_eq_none_iff] at this
  exact this h

theorem send_datagram_hit {nif : NetworkInterface} {next_hop : Address}
    {e : ARP_Entry} (h : mapLookup nif.arp_table_ next_hop.ipv4_numeric = some e)
    (d : InternetDatagram) :
    send_datagram nif d next_hop =
      { nif with frames_out := nif.frames_out ++
          [construct_ethernet_frame nif e.eth_addr EthernetHeader.TYPE_IPv4
            (Payload.ipv4 d)] } := by
  simp [send_datagram, h]

theorem send_datagram_miss_pending {nif : NetworkInterface} {next_hop : Address}
    {t : Nat} (h1 : mapLookup nif.arp_table_ next_hop.ipv4_numeric = none)
    (h2 : mapLookup nif.waiting_arp_response_ip_addr_ next_hop.ipv4_numeric = some t)
    (d : InternetDatagram) :
    send_datagram nif d next_hop =
      { nif with waiting_arp_internet_datagrams_ :=
          nif.waiting_arp_internet_datagrams_ ++ [(next_hop, d)] } := by
  simp [send_datagram, h1, h2]

theorem send_datagram_miss_fresh {nif : NetworkInterface} {next_hop : Address}
    (h1 : mapLookup nif.arp_table_ next_hop.ipv4_numeric = none)
    (h2 : mapLookup nif.waiting_arp_response_ip_addr_ next_hop.ipv4_numeric = none)
    (d : InternetDatagram) :
    send_datagram nif d next_hop =
      { nif with
        frames_out := nif.frames_out ++
          [discovery_request_frame nif next_hop.ipv4_numeric]
        waiting_arp_response_ip_addr_ :=
          mapInsert nif.waiting_arp_response_ip_addr_ next_hop.ipv4_numeric
            arp_response_default_ttl_
        waiting_arp_internet_datagrams_ :=
          nif.waiting_arp_internet_datagrams_ ++ [(next_hop, d)] } := by
  simp [send_datagram, h1, h2, discovery_request_frame]

theorem drain_go_hit (src : Nat) (e : ARP_Entry) :
    ∀ (w front : List (Address × InternetDatagram)) (nif : NetworkInterface),
      nif.waiting_arp_internet_datagrams_ = w →
      mapLookup nif.arp_table_ src = some e →
      drain_go w.length src front nif =
        { nif with
          waiting_arp_internet_datagrams_ :=
            front ++ w.filter (fun p => !(p.1.ipv4_numeric == src)),
          frames_out := nif.frames_out ++
            (w.filter (fun p => p.1.ipv4_numeric == src)).map
              (fun p => construct_ethernet_frame nif e.eth_addr
                EthernetHeader.TYPE_IPv4 (Payload.ipv4 p.2)) } := by
  intro w
  induction w with
  | nil =>
    intro front nif hw h
    simp [drain_go, hw]
  | cons hd rest ih =>
    intro front nif hw h
    obtain ⟨a, d⟩ := hd
    obtain ⟨eth1, ip1, arp1, pend1, wait1, fr1⟩ := nif
    simp only at hw h
    subst hw
    by_cases ha : a.ipv4_numeric = src
    · have h' : mapLookup arp1 a.ipv4_numeric = some e := by rw [ha]; exact h
      have hsend :=
        @send_datagram_hit ⟨eth1, ip1, arp1, pend1, rest, fr1⟩ a e h' d
      simp only [List.length_cons, drain_go, ha, if_true]
      rw [hsend]
      have := ih front
        ⟨eth1, ip1, arp1, pend1, rest,
          fr1 ++ [construct_ethernet_frame ⟨eth1, ip1, arp1, pend1, rest, fr1⟩
            e.eth_addr EthernetHeader.TYPE_IPv4 (Payload.ipv4 d)]⟩ rfl h
      rw [this]
      simp [construct_ethernet_frame, ha, List.filter_cons]
    · simp only [List.length_cons, drain_go, ha, if_false]
      have := ih (front ++ [(a, d)]) ⟨eth1, ip1, arp1, pend1, rest, fr1⟩ rfl h
      rw [this]
      simp [construct_ethernet_frame, ha, List.filter_cons]

theorem drain_go_hit_fuel (src : Nat) (e : ARP_Entry) :
    ∀ (w front : List (Address × InternetDatagram)) (nif : NetworkInterface)
      (fuel : Nat),
      nif.waiting_arp_internet_datagrams_ = w →
      mapLookup nif.arp_table_ src = some e →
      w.length ≤ fuel →
      drain_go fuel src front nif = drain_go w.length src front nif := by
  intro w
  induction w with
  | nil =>
    intro front nif fuel hw h hfuel
    cases fuel with
    | zero => rfl
    | succ f => simp [drain_go, hw]
  | cons hd rest ih =>
    intro front nif fuel hw h hfuel
    obtain ⟨a, d⟩ := hd
    cases fuel with
    | zero => exact absurd hfuel (by simp)
    | succ f =>
      have hf : rest.length ≤ f := Nat.le_of_succ_le_succ hfuel
      obtain ⟨eth1, ip1, arp1, pend1, wait1, fr1⟩ := nif
      simp only at hw h
      subst hw
      by_cases ha : a.ipv4_numeric = src
      · have h' : mapLookup arp1 a.ipv4_numeric = some e := by rw [ha]; exact h
        have hsend :=
          @send_datagram_hit ⟨eth1, ip1, arp1, pend1, rest, fr1⟩ a e h' d
        simp only [List.length_cons, drain_go, ha, if_true]
        rw [hsend]
        exact ih front _ f rfl h hf
      · simp only [List.length_cons, drain_go, ha, if_false]
        exact ih (front ++ [(a, d)]) _ f rfl h hf

theorem handle_arp_frame_parse_fail {nif : NetworkInterface}
    {frame : EthernetFrame} (hp : parse_arp_message frame.payload = none) :
    handle_arp_frame nif frame = (nif, none) := by
  simp [handle_arp_frame, hp]

theorem handle_arp_frame_invalid {nif : NetworkInterface} {frame : EthernetFrame}
    {m : ARPMessage} (hp : frame.payload = Payload.arp m)
    (hreq : ¬(m.opcode = ARPMessage.OPCODE_REQUEST ∧
      m.target_ip_address = nif.ip_address_.ipv4_numeric))
    (hrep : ¬(m.opcode = ARPMessage.OPCODE_REPLY ∧
      m.target_ethernet_address = nif.ethernet_address_)) :
    handle_arp_frame nif frame = (nif, none) := by
  simp [handle_arp_frame, hp, parse_arp_message, hreq, hrep]

theorem handle_arp_frame_request {nif : NetworkInterface} {frame : EthernetFrame}
    {m : ARPMessage} (hp : frame.payload = Payload.arp m)
    (hop : m.opcode = ARPMessage.OPCODE_REQUEST)
    (htgt : m.target_ip_address = nif.ip_address_.ipv4_numeric) :
    handle_arp_frame nif frame =
      ({ nif with
         arp_table_ := mapInsert nif.arp_table_ m.sender_ip_address
           ⟨m.sender_ethernet_address, arp_entry_default_ttl_⟩,
         waiting_arp_response_ip_addr_ :=
           mapErase nif.waiting_arp_response_ip_addr_ m.sender_ip_address,
         waiting_arp_internet_datagrams_ :=
           nif.waiting_arp_internet_datagrams_.filter
             (fun p => !(p.1.ipv4_numeric == m.sender_ip_address)),
         frames_out := nif.frames_out ++
           construct_ethernet_frame nif m.sender_ethernet_address
             EthernetHeader.TYPE_ARP
             (Payload.arp (construct_arp_message nif ARPMessage.OPCODE_REPLY
               m.sender_ethernet_address m.sender_ip_address)) ::
           (nif.waiting_arp_internet_datagrams_.filter
             (fun p => p.1.ipv4_numeric == m.sender_ip_address)).map
             (fun p => construct_ethernet_frame nif m.sender_ethernet_address
               EthernetHeader.TYPE_IPv4 (Payload.ipv4 p.2)) }, none) := by
  obtain ⟨eth1, ip1, arp1, pend1, wait1, fr1⟩ := nif
  simp only at htgt
  simp only [handle_arp_frame, hp, parse_arp_message, hop, htgt]
  have hdrain := drain_go_hit m.sender_ip_address
    ⟨m.sender_ethernet_address, arp_entry_default_ttl_⟩ wait1 []
    ⟨eth1, ip1,
      mapInsert arp1 m.sender_ip_address
        ⟨m.sender_ethernet_address, arp_entry_default_ttl_⟩,
      pend1, wait1,
      fr1 ++ [construct_ethernet_frame ⟨eth1, ip1, arp1, pend1, wait1, fr1⟩
        m.sender_ethernet_address EthernetHeader.TYPE_ARP
        (Payload.arp (construct_arp_message ⟨eth1, ip1, arp1, pend1, wait1, fr1⟩
          ARPMessage.OPCODE_REPLY m.sender_ethernet_address
          m.sender_ip_address))]⟩
    rfl (mapLookup_insert_self _ _ _)
  simp only [ARPMessage.OPCODE_REQUEST, ARPMessage.OPCODE_REPLY] at *
  simp only [construct_ethernet_frame, construct_arp_message] at hdrain ⊢
  simp
  simp [hdrain]

theorem handle_arp_frame_reply {nif : NetworkInterface} {frame : EthernetFrame}
    {m : ARPMessage} (hp : frame.payload = Payload.arp m)
    (hop : m.opcode = ARPMessage.OPCODE_REPLY)
    (htgt : m.target_ethernet_address = nif.ethernet_address_) :
    handle_arp_frame nif frame =
      ({ nif with
         arp_table_ := mapInsert nif.arp_table_ m.sender_ip_address
           ⟨m.sender_ethernet_address, arp_entry_default_ttl_⟩,
         waiting_arp_response_ip_addr_ :=
           mapErase nif.waiting_arp_response_ip_addr_ m.sender_ip_address,
         waiting_arp_internet_datagrams_ :=
           nif.waiting_arp_internet_datagrams_.filter
             (fun p => !(p.1.ipv4_numeric == m.sender_ip_address)),
         frames_out := nif.frames_out ++
           (nif.waiting_arp_internet_datagrams_.filter
             (fun p => p.1.ipv4_numeric == m.sender_ip_address)).map
             (fun p => construct_ethernet_frame nif m.sender_ethernet_address
               EthernetHeader.TYPE_IPv4 (Payload.ipv4 p.2)) }, none) := by
  obtain ⟨eth1, ip1, arp1, pend1, wait1, fr1⟩ := nif
  simp only at htgt
  simp only [handle_arp_frame, hp, parse_arp_message, hop, htgt]
  have hdrain := drain_go_hit m.sender_ip_address
    ⟨m.sender_ethernet_address, arp_entry_default_ttl_⟩ wait1 []
    ⟨eth1, ip1,
      mapInsert arp1 m.sender_ip_address
        ⟨m.sender_ethernet_address, arp_entry_default_ttl_⟩,
      pend1, wait1, fr1⟩
    rfl (mapLookup_insert_self _ _ _)
  simp only [ARPMessage.OPCODE_REQUEST, ARPMessage.OPCODE_REPLY] at *
  simp only [construct_ethernet_frame, construct_arp_message] at hdrain ⊢
  simp
  simp [hdrain]

theorem mem_keys_iff_exists {α : Type} {m : List (Nat × α)} {a : Nat} :
    a ∈ mapKeys m ↔ ∃ v, (a, v) ∈ m := by
  simp only [mapKeys, List.mem_map]
  constructor
  · rintro ⟨⟨x, y⟩, hm, rfl⟩
    exact ⟨y, hm⟩
  · rintro ⟨v, hv⟩
    exact ⟨(a, v), hv, rfl⟩

theorem recv_frame_not_addressed {nif : NetworkInterface} {frame : EthernetFrame}
    (h1 : frame.header.dst ≠ nif.ethernet_address_)
    (h2 : frame.header.dst ≠ ETHERNET_BROADCAST) :
    recv_frame nif frame = (nif, none) := by
  simp [recv_frame, h1, h2]

theorem recv_frame_arp {nif : NetworkInterface} {frame : EthernetFrame}
    (hdst : frame.header.dst = nif.ethernet_address_ ∨
      frame.header.dst = ETHERNET_BROADCAST)
    (htype : frame.header.type = EthernetHeader.TYPE_ARP) :
    recv_frame nif frame = handle_arp_frame nif frame := by
  rcases hdst with h | h <;>
    simp [recv_frame, h, htype, EthernetHeader.TYPE_ARP, EthernetHeader.TYPE_IPv4]

theorem recv_frame_ipv4 {nif : NetworkInterface} {frame : EthernetFrame}
    (hdst : frame.header.dst = nif.ethernet_address_ ∨
      frame.header.dst = ETHERNET_BROADCAST)
    (htype : frame.header.type = EthernetHeader.TYPE_IPv4) :
    recv_frame nif frame = (nif, handle_IPv4_frame frame) := by
  rcases hdst with h | h <;> simp [recv_frame, h, htype]

/-- Case analysis of `recv_frame` at the level of the three protocol stores:
either none of them changes, or a valid directed ARP message from some sender
was processed, with exactly the learn / satisfy / drain effect. -/
theorem recv_frame_stores (nif : NetworkInterface) (frame : EthernetFrame) :
    ((recv_frame nif frame).1.arp_table_ = nif.arp_table_ ∧
     (recv_frame nif frame).1.waiting_arp_response_ip_addr_ =
       nif.waiting_arp_response_ip_addr_ ∧
     (recv_frame nif frame).1.waiting_arp_internet_datagrams_ =
       nif.waiting_arp_internet_datagrams_) ∨
    (∃ s e : Nat,
     (recv_frame nif frame).1.arp_table_ =
       mapInsert nif.arp_table_ s ⟨e, arp_entry_default_ttl_⟩ ∧
     (recv_frame nif frame).1.waiting_arp_response_ip_addr_ =
       mapErase nif.waiting_arp_response_ip_addr_ s ∧
     (recv_frame nif frame).1.waiting_arp_internet_datagrams_ =
       nif.waiting_arp_internet_datagrams_.filter
         (fun p => !(p.1.ipv4_numeric == s))) := by
  by_cases hd : frame.header.dst ≠ nif.ethernet_address_ ∧
      frame.header.dst ≠ ETHERNET_BROADCAST
  · rw [recv_frame_not_addressed hd.1 hd.2]
    exact Or.inl ⟨rfl, rfl, rfl⟩
  · have hdst : frame.header.dst = nif.ethernet_address_ ∨
        frame.header.dst = ETHERNET_BROADCAST := by
      by_cases h1 : frame.header.dst = nif.ethernet_address_
      · exact Or.inl h1
      · right
        by_contra h2
        exact hd ⟨h1, h2⟩
    by_cases ht4 : frame.header.type = EthernetHeader.TYPE_IPv4
    · rw [recv_frame_ipv4 hdst ht4]
      exact Or.inl ⟨rfl, rfl, rfl⟩
    by_cases hta : frame.header.type = EthernetHeader.TYPE_ARP
    · rw [recv_frame_arp hdst hta]
      cases hpay : frame.payload with
      | ipv4 d =>
        rw [handle_arp_frame_parse_fail (by simp [parse_arp_message, hpay])]
        exact Or.inl ⟨rfl, rfl, rfl⟩
      | junk b =>
        rw [handle_arp_frame_parse_fail (by simp [parse_arp_message, hpay])]
        exact Or.inl ⟨rfl, rfl, rfl⟩
      | arp m =>
        by_cases hreq : m.opcode = ARPMessage.OPCODE_REQUEST ∧
            m.target_ip_address = nif.ip_address_.ipv4_numeric
        · rw [handle_arp_frame_request hpay hreq.1 hreq.2]
          exact Or.inr ⟨m.sender_ip_address, m.sender_ethernet_address,
            rfl, rfl, rfl⟩
        by_cases hrep : m.opcode = ARPMessage.OPCODE_REPLY ∧
            m.target_ethernet_address = nif.ethernet_address_
        · rw [handle_arp_frame_reply hpay hrep.1 hrep.2]
          exact Or.inr ⟨m.sender_ip_address, m.sender_ethernet_address,
            rfl, rfl, rfl⟩
        · rw [handle_arp_frame_invalid hpay hreq hrep]
          exact Or.inl ⟨rfl, rfl, rfl⟩
    · have : recv_frame nif frame = (nif, none) := by
        rcases hdst with h | h <;> simp [recv_frame, h, ht4, hta]
      rw [this]
      exact Or.inl ⟨rfl, rfl, rfl⟩

/-- Core invariant: no IPv4 address is simultaneously in the ARP table and in
the pending-request map, in any reachable state. -/
theorem inv_disjoint {nif : NetworkInterface} (h : Reachable nif) :
    ∀ a, a ∈ mapKeys nif.arp_table_ →
      a ∉ mapKeys nif.waiting_arp_response_ip_addr_ := by
  induction h with
  | construct eth ip =>
    simp [mkInterface, mapKeys]
  | @send nif0 d next_hop hr ih =>
    cases hl : mapLookup nif0.arp_table_ next_hop.ipv4_numeric with
    | some e =>
      rw [send_datagram_hit hl d]
      exact ih
    | none =>
      cases hp : mapLookup nif0.waiting_arp_response_ip_addr_ next_hop.ipv4_numeric with
      | some t =>
        rw [send_datagram_miss_pending hl hp d]
        exact ih
      | none =>
        rw [send_datagram_miss_fresh hl hp d]
        intro a ha hmem
        simp only [mem_mapKeys_insert] at hmem
        rcases hmem with rfl | hmem
        · rw [mapLookup_eq_none_iff] at hl
          exact hl ha
        · exact ih a ha hmem
  | @recv nif0 f hr ih =>
    rcases recv_frame_stores nif0 f with ⟨h1, h2, h3⟩ | ⟨s, e, h1, h2, h3⟩
    · rw [h1, h2]
      exact ih
    · intro a ha hmem
      rw [h1, mem_mapKeys_insert] at ha
      rw [h2, mem_mapKeys_erase] at hmem
      rcases ha with rfl | ha
      · exact hmem.2 rfl
      · exact ih a ha hmem.1
  | @tick nif0 ms hr ih =>
    intro a ha hmem
    simp only [tick] at ha hmem
    exact ih a
      (mem_keys_filterMap (fun v => decide (ms < v.ttl))
        (fun v => { v with ttl := v.ttl - ms }) ha)
      (mem_keys_filterMap (fun v => decide (ms < v))
        (fun v => v - ms) hmem)
  | @poll nif0 hr ih =>
    cases hf : nif0.frames_out with
    | nil => simpa [maybe_send, hf] using ih
    | cons f rest => simpa [maybe_send, hf] using ih

/-- Core invariant: every blocked datagram's next hop has a pending-request
entry, in any reachable state. -/
theorem inv_blocked_pending {nif : NetworkInterface} (h : Reachable nif) :
    ∀ p ∈ nif.waiting_arp_internet_datagrams_,
      p.1.ipv4_numeric ∈ mapKeys nif.waiting_arp_response_ip_addr_ := by
  induction h with
  | construct eth ip =>
    simp [mkInterface]
  | @send nif0 d next_hop hr ih =>
    cases hl : mapLookup nif0.arp_table_ next_hop.ipv4_numeric with
    | some e =>
      rw [send_datagram_hit hl d]
      exact ih
    | none =>
      cases hp : mapLookup nif0.waiting_arp_response_ip_addr_ next_hop.ipv4_numeric with
      | some t =>
        rw [send_datagram_miss_pending hl hp d]
        intro p hpmem
        simp only [List.mem_append, List.mem_singleton] at hpmem
        rcases hpmem with hpmem | rfl
        · exact ih p hpmem
        · exact mem_keys_iff_exists.mpr ⟨t, mem_of_mapLookup_eq_some hp⟩
      | none =>
        rw [send_datagram_miss_fresh hl hp d]
        intro p hpmem
        simp only [List.mem_append, List.mem_singleton] at hpmem
        simp only [mem_mapKeys_insert]
        rcases hpmem with hpmem | rfl
        · exact Or.inr (ih p hpmem)
        · exact Or.inl rfl
  | @recv nif0 f hr ih =>
    rcases recv_frame_stores nif0 f with ⟨h1, h2, h3⟩ | ⟨s, e, h1, h2, h3⟩
    · rw [h2, h3]
      exact ih
    · rw [h2, h3]
      intro p hpmem
      rw [List.mem_filter] at hpmem
      have hne : p.1.ipv4_numeric ≠ s := by
        have := hpmem.2
        simp at this
        exact this
      rw [mem_mapKeys_erase]
      exact ⟨ih p hpmem.1, hne⟩
  | @tick nif0 ms hr ih =>
    intro p hpmem
    simp only [tick] at hpmem ⊢
    rw [List.mem_filter] at hpmem
    obtain ⟨hpmem, hcont⟩ := hpmem
    have hnotin : p.1.ipv4_numeric ∉
        ((nif0.waiting_arp_response_ip_addr_.filter
          (fun q => decide (q.2 ≤ ms))).map Prod.fst) := by
      simp only [Bool.not_eq_true'] at hcont
      simpa using hcont
    obtain ⟨t, ht⟩ := mem_keys_iff_exists.mp (ih p hpmem)
    have hms : ¬(t ≤ ms) := by
      intro hle
      exact hnotin (List.mem_map.mpr ⟨(p.1.ipv4_numeric, t),
        List.mem_filter.mpr ⟨ht, by simpa using hle⟩, rfl⟩)
    refine mem_keys_iff_exists.mpr ⟨t - ms, List.mem_map.mpr ⟨(p.1.ipv4_numeric, t),
      List.mem_filter.mpr ⟨ht, by simpa using Nat.lt_of_not_le hms⟩, rfl⟩⟩
  | @poll nif0 hr ih =>
    cases hf : nif0.frames_out with
    | nil => simpa [maybe_send, hf] using ih
    | cons f rest => simpa [maybe_send, hf] using ih

/-- C4: for every state whose resolution cache holds an entry for the next
hop with positive remaining TTL, `send_datagram` enqueues exactly one frame,
of NETWORK (IPv4) type, destined to the cached link address, enqueues no
discovery request, and leaves the pending-request map and the blocked queue
unchanged; being a total function it returns no error for any input. -/
theorem C4_cache_hit_direct_send (nif : NetworkInterface) (d : InternetDatagram)
    (next_hop : Address) (e : ARP_Entry)
    (h : mapLookup nif.arp_table_ next_hop.ipv4_numeric = some e)
    (_hpos : 0 < e.ttl) :
    send_datagram nif d next_hop =
      { nif with frames_out := nif.frames_out ++
          [construct_ethernet_frame nif e.eth_addr EthernetHeader.TYPE_IPv4
            (Payload.ipv4 d)] } ∧
    (construct_ethernet_frame nif e.eth_addr EthernetHeader.TYPE_IPv4
      (Payload.ipv4 d)).header.type = EthernetHeader.TYPE_IPv4 ∧
    (construct_ethernet_frame nif e.eth_addr EthernetHeader.TYPE_IPv4
      (Payload.ipv4 d)).header.dst = e.eth_addr :=
  ⟨send_datagram_hit h d, rfl, rfl⟩

/-- Witness for C4 at a concrete cached state. -/
theorem C4_cache_hit_direct_send_witness :
    send_datagram
      { ethernet_address_ := 1, ip_address_ := ⟨2⟩,
        arp_table_ := [(5, ⟨9, 30000⟩)], waiting_arp_response_ip_addr_ := [],
        waiting_arp_internet_datagrams_ := [], frames_out := [] } 7 ⟨5⟩ =
      { ethernet_address_ := 1, ip_address_ := ⟨2⟩,
        arp_table_ := [(5, ⟨9, 30000⟩)], waiting_arp_response_ip_addr_ := [],
        waiting_arp_internet_datagrams_ := [],
        frames_out := [construct_ethernet_frame
          { ethernet_address_ := 1, ip_address_ := ⟨2⟩,
            arp_table_ := [(5, ⟨9, 30000⟩)], waiting_arp_response_ip_addr_ := [],
            waiting_arp_internet_datagrams_ := [], frames_out := [] }
          9 EthernetHeader.TYPE_IPv4 (Payload.ipv4 7)] } :=
  (C4_cache_hit_direct_send _ 7 ⟨5⟩ ⟨9, 30000⟩ (by decide) (by decide)).1

/-- C8: a frame whose destination link address is neither this interface's
own address nor the broadcast address is ignored: `recv_frame` returns the
unchanged state and `none`, regardless of the frame's type and payload. -/
theorem C8_non_addressed_frames_ignored (nif : NetworkInterface)
    (frame : EthernetFrame)
    (h1 : frame.header.dst ≠ nif.ethernet_address_)
    (h2 : frame.header.dst ≠ ETHERNET_BROADCAST) :
    recv_frame nif frame = (nif, none) :=
  recv_frame_not_addressed h1 h2

/-- Witness for C8 at a concrete non-addressed frame. -/
theorem C8_non_addressed_frames_ignored_witness :
    recv_frame (mkInterface 1 ⟨2⟩)
      { header := { dst := 3, src := 4, type := EthernetHeader.TYPE_IPv4 },
        payload := Payload.ipv4 7 } =
      (mkInterface 1 ⟨2⟩, none) :=
  C8_non_addressed_frames_ignored (mkInterface 1 ⟨2⟩) _ (by decide) (by decide)

/-- C9: a frame addressed to this interface (or broadcast) whose payload
fails to parse — an IPv4-type frame whose payload is not a serialized
datagram, or an ARP-type frame whose payload is not a serialized ARP
message — makes `recv_frame` return `none` with the state unchanged; the
parse failure is never surfaced. -/
theorem C9_malformed_payload_tolerated (nif : NetworkInterface)
    (frame : EthernetFrame)
    (hdst : frame.header.dst = nif.ethernet_address_ ∨
      frame.header.dst = ETHERNET_BROADCAST)
    (h : (frame.header.type = EthernetHeader.TYPE_IPv4 ∧
            parse_internet_datagram frame.payload = none) ∨
         (frame.header.type = EthernetHeader.TYPE_ARP ∧
            parse_arp_message frame.payload = none)) :
    recv_frame nif frame = (nif, none) := by
  rcases h with ⟨ht, hp⟩ | ⟨ht, hp⟩
  · rw [recv_frame_ipv4 hdst ht]
    simp [handle_IPv4_frame, hp]
  · rw [recv_frame_arp hdst ht]
    exact handle_arp_frame_parse_fail hp

/-- Witness for C9 at a concrete malformed ARP frame. -/
theorem C9_malformed_payload_tolerated_witness :
    recv_frame (mkInterface 1 ⟨2⟩)
      { header := { dst := 1, src := 4, type := EthernetHeader.TYPE_ARP },
        payload := Payload.junk 0 } =
      (mkInterface 1 ⟨2⟩, none) :=
  C9_malformed_payload_tolerated (mkInterface 1 ⟨2⟩) _ (Or.inl rfl)
    (Or.inr ⟨rfl, rfl⟩)

/-- C5: aging is exact on the resolution cache.  For a cache entry with
remaining TTL `e.ttl`, `tick` evicts the entry when `e.ttl ≤ ms` and
otherwise keeps it with remaining TTL `e.ttl - ms`; in particular a fresh
entry aged by its full TTL is gone and aged by TTL − 1 it remains with
remaining TTL 1. -/
theorem C5_ttl_exact_eviction (nif : NetworkInterface) (k : Nat)
    (e : ARP_Entry) (ms : Nat) (hnd : (mapKeys nif.arp_table_).Nodup)
    (h : mapLookup nif.arp_table_ k = some e) :
    mapLookup (tick nif ms).arp_table_ k =
      if e.ttl ≤ ms then none else some ⟨e.eth_addr, e.ttl - ms⟩ := by
  have hkey := mapLookup_filterMap_some
    (fun v => decide (ms < v.ttl))
    (fun v => { v with ttl := v.ttl - ms }) hnd h
  simp only [tick]
  rw [hkey]
  by_cases hle : e.ttl ≤ ms
  · simp [hle, Nat.not_lt_of_le hle]
  · simp [hle, Nat.lt_of_not_le hle]

/-- Witness for C5: a fresh 30000 ms entry aged by 29999 ms survives with
TTL 1, and aged by 30000 ms is evicted. -/
theorem C5_ttl_exact_eviction_witness :
    (mapLookup (tick
      { ethernet_address_ := 1, ip_address_ := ⟨2⟩,
        arp_table_ := [(5, ⟨9, 30000⟩)], waiting_arp_response_ip_addr_ := [],
        waiting_arp_internet_datagrams_ := [], frames_out := [] } 29999).arp_table_ 5 =
      if (30000 : Nat) ≤ 29999 then none else some ⟨9, 30000 - 29999⟩) ∧
    (mapLookup (tick
      { ethernet_address_ := 1, ip_address_ := ⟨2⟩,
        arp_table_ := [(5, ⟨9, 30000⟩)], waiting_arp_response_ip_addr_ := [],
        waiting_arp_internet_datagrams_ := [], frames_out := [] } 30000).arp_table_ 5 =
      if (30000 : Nat) ≤ 30000 then none else some ⟨9, 30000 - 30000⟩) :=
  ⟨C5_ttl_exact_eviction _ 5 ⟨9, 30000⟩ 29999 (by decide) (by decide),
   C5_ttl_exact_eviction _ 5 ⟨9, 30000⟩ 30000 (by decide) (by decide)⟩

/-- C6: when the pending request for address `A` has suppression timer
`t ≤ ms`, `tick` removes `A` from the pending map and drops every blocked
datagram whose next hop is `A`, reporting no error; a subsequent send to `A`
while `A` is still uncached broadcasts a fresh discovery request. -/
theorem C6_suppression_timeout_drops (nif : NetworkInterface) (A t ms : Nat)
    (d : InternetDatagram)
    (hnd : (mapKeys nif.waiting_arp_response_ip_addr_).Nodup)
    (hp : mapLookup nif.waiting_arp_response_ip_addr_ A = some t)
    (ht : t ≤ ms)
    (harp : mapLookup nif.arp_table_ A = none) :
    mapLookup (tick nif ms).waiting_arp_response_ip_addr_ A = none ∧
    (∀ p ∈ (tick nif ms).waiting_arp_internet_datagrams_,
      p.1.ipv4_numeric ≠ A) ∧
    send_datagram (tick nif ms) d ⟨A⟩ =
      { tick nif ms with
        frames_out := (tick nif ms).frames_out ++
          [discovery_request_frame (tick nif ms) A]
        waiting_arp_response_ip_addr_ :=
          mapInsert (tick nif ms).waiting_arp_response_ip_addr_ A
            arp_response_default_ttl_
        waiting_arp_internet_datagrams_ :=
          (tick nif ms).waiting_arp_internet_datagrams_ ++ [(⟨A⟩, d)] } := by
  have h1 : mapLookup (tick nif ms).waiting_arp_response_ip_addr_ A = none := by
    have hkey := mapLookup_filterMap_some
      (fun v => decide (ms < v)) (fun v => v - ms) hnd hp
    simp only [tick]
    rw [hkey]
    simp [Nat.not_lt_of_le ht]
  have h2 : ∀ p ∈ (tick nif ms).waiting_arp_internet_datagrams_,
      p.1.ipv4_numeric ≠ A := by
    intro p hpmem hA
    simp only [tick] at hpmem
    rw [List.mem_filter] at hpmem
    have hcont := hpmem.2
    rw [hA] at hcont
    simp only [Bool.not_eq_true'] at hcont
    have hfalse : ¬(List.contains ((nif.waiting_arp_response_ip_addr_.filter
        (fun q => decide (q.2 ≤ ms))).map Prod.fst) A = true) := by
      rw [hcont]
      simp
    rw [List.contains_iff_exists_mem_beq] at hfalse
    exact hfalse ⟨A, List.mem_map.mpr ⟨(A, t),
      List.mem_filter.mpr ⟨mem_of_mapLookup_eq_some hp, by simpa using ht⟩, rfl⟩,
      by simp⟩
  have harp' : mapLookup (tick nif ms).arp_table_ A = none := by
    simp only [tick]
    exact mapLookup_filterMap_none (fun v => decide (ms < v.ttl))
      (fun v => { v with ttl := v.ttl - ms }) harp
  exact ⟨h1, h2, send_datagram_miss_fresh harp' h1 d⟩

/-- Witness for C6 at a concrete expired pending request with one blocked
datagram. -/
theorem C6_suppression_timeout_drops_witness :
    mapLookup (tick
      { ethernet_address_ := 1, ip_address_ := ⟨2⟩, arp_table_ := [],
        waiting_arp_response_ip_addr_ := [(5, 5000)],
        waiting_arp_internet_datagrams_ := [(⟨5⟩, 7)],
        frames_out := [] } 5000).waiting_arp_response_ip_addr_ 5 = none :=
  (C6_suppression_timeout_drops _ 5 5000 5000 8 (by decide) (by decide)
    (by decide) (by decide)).1

theorem mapLookup_eq_of_mem_nodup {α : Type} {m : List (Nat × α)} {k : Nat}
    {v : α} (hnd : (mapKeys m).Nodup) (h : (k, v) ∈ m) :
    mapLookup m k = some v := by
  induction m with
  | nil => simp at h
  | cons q rest ih =>
    obtain ⟨k0, v0⟩ := q
    simp only [mapKeys, List.map_cons, List.nodup_cons] at hnd
    rcases List.mem_cons.mp h with heq | hmem
    · rw [Prod.mk.injEq] at heq
      obtain ⟨rfl, rfl⟩ := heq
      simp [mapLookup]
    · have hkne : k ≠ k0 := by
        intro hkk
        subst hkk
        exact hnd.1 (mem_keys_iff_exists.mpr ⟨v, hmem⟩)
      simp only [mapLookup, if_neg (Ne.symm hkne)]
      exact ih hnd.2 hmem

theorem nodup_keys_filterMap {α : Type} (alive : α → Bool) (age : α → α)
    {m : List (Nat × α)} (hnd : (mapKeys m).Nodup) :
    (mapKeys ((m.filter fun p => alive p.2).map fun p => (p.1, age p.2))).Nodup := by
  have hkeys : mapKeys ((m.filter fun p => alive p.2).map fun p => (p.1, age p.2)) =
      mapKeys (m.filter fun p => alive p.2) := by
    simp [mapKeys, List.map_map, Function.comp]
  rw [hkeys]
  exact List.Nodup.sublist (List.Sublist.map Prod.fst (List.filter_sublist m)) hnd

theorem nodup_keys_mapInsert {α : Type} {m : List (Nat × α)} (k : Nat) (v : α)
    (hnd : (mapKeys m).Nodup) : (mapKeys (mapInsert m k v)).Nodup := by
  simp only [mapInsert, mapKeys, List.map_cons]
  refine List.nodup_cons.mpr ⟨?_, ?_⟩
  · intro hmem
    rw [show List.map Prod.fst (mapErase m k) = mapKeys (mapErase m k) from rfl,
      mem_mapKeys_erase] at hmem
    exact hmem.2 rfl
  · exact List.Nodup.sublist (List.Sublist.map Prod.fst (List.filter_sublist m)) hnd

theorem filter_key_filter_not_contains (A : Nat) (ex : List Nat)
    (w : List (Address × InternetDatagram)) (hA : A ∉ ex) :
    (w.filter (fun p => !(ex.contains p.1.ipv4_numeric))).filter
      (fun p => p.1.ipv4_numeric == A) =
    w.filter (fun p => p.1.ipv4_numeric == A) := by
  rw [List.filter_filter]
  refine List.filter_congr ?_
  intro a _
  by_cases hq : a.1.ipv4_numeric = A
  · simp [hq, hA]
  · simp [hq]

/-- Running an in-window episode from a state in which the next hop is
uncached and has a live pending request with `budget` ms remaining: no event
enqueues any frame, the blocked entries for the next hop are extended by
exactly the submitted datagrams (none is dropped), and the next hop stays
uncached. -/
theorem runEvents_window (next_hop : Address) :
    ∀ (evs : List SendEvent) (nif : NetworkInterface) (budget : Nat),
      mapLookup nif.arp_table_ next_hop.ipv4_numeric = none →
      (mapKeys nif.waiting_arp_response_ip_addr_).Nodup →
      mapLookup nif.waiting_arp_response_ip_addr_ next_hop.ipv4_numeric =
        some budget →
      within_window budget evs →
      (runEvents nif next_hop evs).frames_out = nif.frames_out ∧
      (runEvents nif next_hop evs).waiting_arp_internet_datagrams_.filter
          (fun p => p.1.ipv4_numeric == next_hop.ipv4_numeric) =
        nif.waiting_arp_internet_datagrams_.filter
          (fun p => p.1.ipv4_numeric == next_hop.ipv4_numeric) ++
          (eventDatagrams evs).map (fun x => (next_hop, x)) ∧
      mapLookup (runEvents nif next_hop evs).arp_table_
        next_hop.ipv4_numeric = none := by
  intro evs
  induction evs with
  | nil =>
    intro nif budget h1 hnd h2 hw
    refine ⟨rfl, ?_, h1⟩
    simp [runEvents, eventDatagrams]
  | cons ev rest ih =>
    intro nif budget h1 hnd h2 hw
    cases ev with
    | send d' =>
      rw [show runEvents nif next_hop (SendEvent.send d' :: rest) =
        runEvents (send_datagram nif d' next_hop) next_hop rest from rfl]
      rw [send_datagram_miss_pending h1 h2 d']
      obtain ⟨hf, hwias, ha⟩ := ih
        { nif with waiting_arp_internet_datagrams_ :=
            nif.waiting_arp_internet_datagrams_ ++ [(next_hop, d')] }
        budget h1 hnd h2 hw
      refine ⟨hf, ?_, ha⟩
      rw [hwias]
      simp [List.filter_append, eventDatagrams]
    | wait ms =>
      obtain ⟨hms, hw'⟩ := hw
      rw [show runEvents nif next_hop (SendEvent.wait ms :: rest) =
        runEvents (tick nif ms) next_hop rest from rfl]
      have h1' : mapLookup (tick nif ms).arp_table_ next_hop.ipv4_numeric =
          none := by
        simp only [tick]
        exact mapLookup_filterMap_none (fun v => decide (ms < v.ttl))
          (fun v => { v with ttl := v.ttl - ms }) h1
      have hnd' : (mapKeys (tick nif ms).waiting_arp_response_ip_addr_).Nodup := by
        simp only [tick]
        exact nodup_keys_filterMap (fun v => decide (ms < v)) (fun v => v - ms) hnd
      have h2' : mapLookup (tick nif ms).waiting_arp_response_ip_addr_
          next_hop.ipv4_numeric = some (budget - ms) := by
        simp only [tick]
        rw [mapLookup_filterMap_some (fun v => decide (ms < v))
          (fun v => v - ms) hnd h2]
        simp [hms]
      obtain ⟨hf, hwias, ha⟩ := ih (tick nif ms) (budget - ms) h1' hnd' h2' hw'
      have hAex : next_hop.ipv4_numeric ∉
          ((nif.waiting_arp_response_ip_addr_.filter
            (fun q => decide (q.2 ≤ ms))).map Prod.fst) := by
        intro hmem
        obtain ⟨⟨k0, t0⟩, hin, hk⟩ := List.mem_map.mp hmem
        simp only at hk
        subst hk
        rw [List.mem_filter] at hin
        have hlk := mapLookup_eq_of_mem_nodup hnd hin.1
        rw [h2] at hlk
        have ht0 : t0 = budget := by
          have := Option.some.inj hlk
          omega
        have hle : t0 ≤ ms := by simpa using hin.2
        omega
      refine ⟨?_, ?_, ha⟩
      · rw [hf]
        simp [tick]
      · rw [hwias,
          show eventDatagrams (SendEvent.wait ms :: rest) = eventDatagrams rest
            from rfl]
        congr 1
        simp only [tick]
        exact filter_key_filter_not_contains next_hop.ipv4_numeric _ _ hAex

/-- C2: for every episode of `send_datagram` calls to the same next hop,
with arbitrary interleaved `tick` calls, where the next hop is uncached and
has no pending request at the start and every send occurs before the
5000 ms suppression timer expires (no wait exhausts the remaining time):
the first call broadcasts the one and only discovery-request frame
(broadcast destination, ARP type) and registers the pending entry, no later
event enqueues any frame, every call appends its `(next_hop, datagram)`
pair to the blocked queue where it survives the in-window ticks, and the
next hop stays uncached throughout. -/
theorem C2_request_deduplication (nif : NetworkInterface) (next_hop : Address)
    (d : InternetDatagram) (evs : List SendEvent)
    (h1 : mapLookup nif.arp_table_ next_hop.ipv4_numeric = none)
    (h2 : mapLookup nif.waiting_arp_response_ip_addr_ next_hop.ipv4_numeric = none)
    (hnd : (mapKeys nif.waiting_arp_response_ip_addr_).Nodup)
    (hw : within_window arp_response_default_ttl_ evs) :
    send_datagram nif d next_hop =
      { nif with
        frames_out := nif.frames_out ++
          [discovery_request_frame nif next_hop.ipv4_numeric]
        waiting_arp_response_ip_addr_ :=
          mapInsert nif.waiting_arp_response_ip_addr_ next_hop.ipv4_numeric
            arp_response_default_ttl_
        waiting_arp_internet_datagrams_ :=
          nif.waiting_arp_internet_datagrams_ ++ [(next_hop, d)] } ∧
    (runEvents (send_datagram nif d next_hop) next_hop evs).frames_out =
      nif.frames_out ++ [discovery_request_frame nif next_hop.ipv4_numeric] ∧
    (runEvents (send_datagram nif d next_hop) next_hop
        evs).waiting_arp_internet_datagrams_.filter
        (fun p => p.1.ipv4_numeric == next_hop.ipv4_numeric) =
      nif.waiting_arp_internet_datagrams_.filter
        (fun p => p.1.ipv4_numeric == next_hop.ipv4_numeric) ++
        (d :: eventDatagrams evs).map (fun x => (next_hop, x)) ∧
    mapLookup (runEvents (send_datagram nif d next_hop) next_hop
      evs).arp_table_ next_hop.ipv4_numeric = none ∧
    (discovery_request_frame nif next_hop.ipv4_numeric).header.dst =
      ETHERNET_BROADCAST ∧
    (discovery_request_frame nif next_hop.ipv4_numeric).header.type =
      EthernetHeader.TYPE_ARP := by
  have hfirst := send_datagram_miss_fresh h1 h2 d
  have hins := mapLookup_insert_self nif.waiting_arp_response_ip_addr_
    next_hop.ipv4_numeric arp_response_default_ttl_
  obtain ⟨hf, hwias, ha⟩ := runEvents_window next_hop evs
    { nif with
      frames_out := nif.frames_out ++
        [discovery_request_frame nif next_hop.ipv4_numeric]
      waiting_arp_response_ip_addr_ :=
        mapInsert nif.waiting_arp_response_ip_addr_ next_hop.ipv4_numeric
          arp_response_default_ttl_
      waiting_arp_internet_datagrams_ :=
        nif.waiting_arp_internet_datagrams_ ++ [(next_hop, d)] }
    arp_response_default_ttl_ h1
    (nodup_keys_mapInsert next_hop.ipv4_numeric arp_response_default_ttl_ hnd)
    hins hw
  rw [hfirst]
  refine ⟨rfl, ?_, ?_, ha, rfl, rfl⟩
  · rw [hf]
  · rw [hwias]
    simp [List.filter_append]

/-- Witness for C2: a send to the uncached address 5, then 1000 ms of time,
a second send, another 3999 ms (4999 ms total, still inside the 5000 ms
suppression window), and a third send — exactly one (broadcast ARP request)
frame is enqueued over the whole episode. -/
theorem C2_request_deduplication_witness :
    (runEvents (send_datagram (mkInterface 1 ⟨2⟩) 7 ⟨5⟩) ⟨5⟩
      [SendEvent.wait 1000, SendEvent.send 8, SendEvent.wait 3999,
        SendEvent.send 9]).frames_out =
      (mkInterface 1 ⟨2⟩).frames_out ++
        [discovery_request_frame (mkInterface 1 ⟨2⟩) (5 : Nat)] :=
  (C2_request_deduplication (mkInterface 1 ⟨2⟩) ⟨5⟩ 7
    [SendEvent.wait 1000, SendEvent.send 8, SendEvent.wait 3999,
      SendEvent.send 9]
    (by decide) (by decide) (by decide)
    (by norm_num [within_window, arp_response_default_ttl_])).2.1

/-- C3: the blocked-queue drainage performed by `handle_arp_frame` runs with
the sender's ARP entry already inserted (line order in the source), so every
re-invocation of `send_datagram` takes the cache-hit branch: the loop only
appends direct IPv4 frames for the matching entries, removes exactly those
entries from the blocked queue, leaves the ARP table and the pending-request
map untouched, and terminates — any fuel of at least the queue length gives
the same result as fuel equal to the queue length. -/
theorem C3_drain_hits_cache_and_terminates (nif : NetworkInterface)
    (src_ip src_eth : Nat) (fuel : Nat)
    (front : List (Address × InternetDatagram))
    (hfuel : nif.waiting_arp_internet_datagrams_.length ≤ fuel) :
    drain_go fuel src_ip front
      { nif with arp_table_ := mapInsert nif.arp_table_ src_ip ⟨src_eth, arp_entry_default_ttl_⟩ } =
      { nif with
        arp_table_ := mapInsert nif.arp_table_ src_ip ⟨src_eth, arp_entry_default_ttl_⟩
        waiting_arp_internet_datagrams_ :=
          front ++ nif.waiting_arp_internet_datagrams_.filter
            (fun p => !(p.1.ipv4_numeric == src_ip))
        frames_out := nif.frames_out ++
          (nif.waiting_arp_internet_datagrams_.filter
            (fun p => p.1.ipv4_numeric == src_ip)).map
            (fun p => construct_ethernet_frame
              { nif with arp_table_ := mapInsert nif.arp_table_ src_ip ⟨src_eth, arp_entry_default_ttl_⟩ }
              src_eth EthernetHeader.TYPE_IPv4 (Payload.ipv4 p.2)) } := by
  have hlook := mapLookup_insert_self nif.arp_table_ src_ip
    (⟨src_eth, arp_entry_default_ttl_⟩ : ARP_Entry)
  rw [drain_go_hit_fuel src_ip ⟨src_eth, arp_entry_default_ttl_⟩
    nif.waiting_arp_internet_datagrams_ front
    { nif with arp_table_ := mapInsert nif.arp_table_ src_ip ⟨src_eth, arp_entry_default_ttl_⟩ }
    fuel rfl hlook hfuel]
  exact drain_go_hit src_ip ⟨src_eth, arp_entry_default_ttl_⟩
    nif.waiting_arp_internet_datagrams_ front
    { nif with arp_table_ := mapInsert nif.arp_table_ src_ip ⟨src_eth, arp_entry_default_ttl_⟩ }
    rfl hlook

/-- Witness for C3 at a concrete two-entry queue and surplus fuel. -/
theorem C3_drain_hits_cache_and_terminates_witness :
    drain_go 5 5 []
      { ethernet_address_ := 1, ip_address_ := ⟨2⟩,
        arp_table_ := mapInsert ([] : List (Nat × ARP_Entry)) 5 ⟨9, arp_entry_default_ttl_⟩,
        waiting_arp_response_ip_addr_ := [(5, 5000)],
        waiting_arp_internet_datagrams_ := [(⟨5⟩, 7), (⟨6⟩, 8)],
        frames_out := [] } =
      { ethernet_address_ := 1, ip_address_ := ⟨2⟩,
        arp_table_ := mapInsert ([] : List (Nat × ARP_Entry)) 5 ⟨9, arp_entry_default_ttl_⟩,
        waiting_arp_response_ip_addr_ := [(5, 5000)],
        waiting_arp_internet_datagrams_ :=
          [] ++ ([(⟨5⟩, 7), (⟨6⟩, 8)] : List (Address × InternetDatagram)).filter (fun p => !(p.1.ipv4_numeric == 5)),
        frames_out := [] ++
          (([(⟨5⟩, 7), (⟨6⟩, 8)] : List (Address × InternetDatagram)).filter (fun p => p.1.ipv4_numeric == 5)).map
            (fun p => construct_ethernet_frame
              { ethernet_address_ := 1, ip_address_ := ⟨2⟩,
                arp_table_ := mapInsert ([] : List (Nat × ARP_Entry)) 5 ⟨9, arp_entry_default_ttl_⟩,
                waiting_arp_response_ip_addr_ := [(5, 5000)],
                waiting_arp_internet_datagrams_ := [(⟨5⟩, 7), (⟨6⟩, 8)],
                frames_out := [] }
              9 EthernetHeader.TYPE_IPv4 (Payload.ipv4 p.2)) } :=
  C3_drain_hits_cache_and_terminates
    { ethernet_address_ := 1, ip_address_ := ⟨2⟩, arp_table_ := [],
      waiting_arp_response_ip_addr_ := [(5, 5000)],
      waiting_arp_internet_datagrams_ := [(⟨5⟩, 7), (⟨6⟩, 8)],
      frames_out := [] } 5 9 5 [] (by decide)

/-- C1: receiving a valid directed ARP request or reply from sender `H`
(a frame addressed to this interface), when the cache has no entry for `H`
and the blocked queue holds exactly `N` entries whose next hop is `H`,
enqueues exactly `N` new NETWORK (IPv4) frames, all destined to `H`'s link
address, removes `H` from the pending-request map, removes exactly the
blocked entries for `H` (keeping the others), caches
`H ↦ (sender link address, full 30000 ms TTL)`, and returns `none`. -/
theorem C1_resolution_drains_queue (nif : NetworkInterface)
    (frame : EthernetFrame) (m : ARPMessage) (H N : Nat)
    (hH : m.sender_ip_address = H)
    (hcache : mapLookup nif.arp_table_ H = none)
    (hN : (nif.waiting_arp_internet_datagrams_.filter
      (fun p => p.1.ipv4_numeric == H)).length = N)
    (hdst : frame.header.dst = nif.ethernet_address_ ∨
      frame.header.dst = ETHERNET_BROADCAST)
    (htype : frame.header.type = EthernetHeader.TYPE_ARP)
    (hpay : frame.payload = Payload.arp m)
    (hvalid : (m.opcode = ARPMessage.OPCODE_REQUEST ∧
        m.target_ip_address = nif.ip_address_.ipv4_numeric) ∨
      (m.opcode = ARPMessage.OPCODE_REPLY ∧
        m.target_ethernet_address = nif.ethernet_address_)) :
    (recv_frame nif frame).2 = none ∧
    (((recv_frame nif frame).1.frames_out.drop nif.frames_out.length).filter
        (fun fr => fr.header.type == EthernetHeader.TYPE_IPv4)).length = N ∧
    (∀ fr ∈ ((recv_frame nif frame).1.frames_out.drop
        nif.frames_out.length).filter
        (fun fr => fr.header.type == EthernetHeader.TYPE_IPv4),
      fr.header.dst = m.sender_ethernet_address) ∧
    mapLookup (recv_frame nif frame).1.waiting_arp_response_ip_addr_ H = none ∧
    (recv_frame nif frame).1.waiting_arp_internet_datagrams_ =
      nif.waiting_arp_internet_datagrams_.filter
        (fun p => !(p.1.ipv4_numeric == H)) ∧
    mapLookup (recv_frame nif frame).1.arp_table_ H =
      some ⟨m.sender_ethernet_address, arp_entry_default_ttl_⟩ := by
  subst hH
  rw [recv_frame_arp hdst htype]
  rcases hvalid with ⟨hop, htgt⟩ | ⟨hop, htgt⟩
  · rw [handle_arp_frame_request hpay hop htgt]
    refine ⟨rfl, ?_, ?_, mapLookup_erase_self _ _, rfl,
      mapLookup_insert_self _ _ _⟩
    · simp [construct_ethernet_frame, EthernetHeader.TYPE_ARP,
        EthernetHeader.TYPE_IPv4, List.filter_map, Function.comp, hN]
    · intro fr hfr
      simp only [List.drop_left] at hfr
      rw [List.filter_cons] at hfr
      simp only [construct_ethernet_frame, EthernetHeader.TYPE_ARP,
        EthernetHeader.TYPE_IPv4] at hfr
      norm_num at hfr
      obtain ⟨⟨a, b, hab, rfl⟩, hty⟩ := hfr
      rfl
  · rw [handle_arp_frame_reply hpay hop htgt]
    refine ⟨rfl, ?_, ?_, mapLookup_erase_self _ _, rfl,
      mapLookup_insert_self _ _ _⟩
    · simp [construct_ethernet_frame, EthernetHeader.TYPE_IPv4,
        List.filter_map, Function.comp, hN]
    · intro fr hfr
      simp only [List.drop_left] at hfr
      rw [List.mem_filter] at hfr
      obtain ⟨p, hp, rfl⟩ := List.mem_map.mp hfr.1
      rfl

/-- Witness for C1: an ARP reply from 5 (link address 9) drains the two
blocked datagrams for 5 and returns `none`. -/
theorem C1_resolution_drains_queue_witness :
    (recv_frame
      { ethernet_address_ := 1, ip_address_ := ⟨2⟩, arp_table_ := [],
        waiting_arp_response_ip_addr_ := [(5, 5000)],
        waiting_arp_internet_datagrams_ := [(⟨5⟩, 7), (⟨6⟩, 8), (⟨5⟩, 9)],
        frames_out := [] }
      { header := { dst := 1, src := 9, type := EthernetHeader.TYPE_ARP },
        payload := Payload.arp
          { opcode := ARPMessage.OPCODE_REPLY, sender_ethernet_address := 9,
            sender_ip_address := 5, target_ethernet_address := 1,
            target_ip_address := 3 } }).2 = none :=
  (C1_resolution_drains_queue
    { ethernet_address_ := 1, ip_address_ := ⟨2⟩, arp_table_ := [],
      waiting_arp_response_ip_addr_ := [(5, 5000)],
      waiting_arp_internet_datagrams_ := [(⟨5⟩, 7), (⟨6⟩, 8), (⟨5⟩, 9)],
      frames_out := [] }
    { header := { dst := 1, src := 9, type := EthernetHeader.TYPE_ARP },
      payload := Payload.arp
        { opcode := ARPMessage.OPCODE_REPLY, sender_ethernet_address := 9,
          sender_ip_address := 5, target_ethernet_address := 1,
          target_ip_address := 3 } }
    { opcode := ARPMessage.OPCODE_REPLY, sender_ethernet_address := 9,
      sender_ip_address := 5, target_ethernet_address := 1,
      target_ip_address := 3 }
    5 2 rfl (by decide) (by decide) (Or.inl rfl) rfl rfl
    (Or.inr ⟨rfl, rfl⟩)).1

/-- C7: in every state reachable from a freshly constructed interface by the
four public operations, no IPv4 address is simultaneously present in the
resolution cache and in the pending-request map. -/
theorem C7_cache_pending_disjoint (nif : NetworkInterface)
    (h : Reachable nif) (a : Nat) (ha : a ∈ mapKeys nif.arp_table_) :
    a ∉ mapKeys nif.waiting_arp_response_ip_addr_ :=
  inv_disjoint h a ha

/-- Witness for C7: after learning 5 from an ARP reply, 5 is cached and not
pending. -/
theorem C7_cache_pending_disjoint_witness :
    5 ∉ mapKeys (recv_frame (mkInterface 1 ⟨2⟩)
      { header := { dst := 1, src := 9, type := EthernetHeader.TYPE_ARP },
        payload := Payload.arp
          { opcode := ARPMessage.OPCODE_REPLY, sender_ethernet_address := 9,
            sender_ip_address := 5, target_ethernet_address := 1,
            target_ip_address := 3 } }).1.waiting_arp_response_ip_addr_ :=
  C7_cache_pending_disjoint _
    (Reachable.recv
      { header := { dst := 1, src := 9, type := EthernetHeader.TYPE_ARP },
        payload := Payload.arp
          { opcode := ARPMessage.OPCODE_REPLY, sender_ethernet_address := 9,
            sender_ip_address := 5, target_ethernet_address := 1,
            target_ip_address := 3 } }
      (Reachable.construct 1 ⟨2⟩)) 5 (by decide)

/-- C10: in every reachable state, the next hop of every blocked datagram is
present in the pending-request map — and therefore, by the disjointness
invariant, absent from the resolution cache. -/
theorem C10_blocked_implies_pending (nif : NetworkInterface)
    (h : Reachable nif) (p : Address × InternetDatagram)
    (hp : p ∈ nif.waiting_arp_internet_datagrams_) :
    p.1.ipv4_numeric ∈ mapKeys nif.waiting_arp_response_ip_addr_ ∧
    p.1.ipv4_numeric ∉ mapKeys nif.arp_table_ := by
  have h1 := inv_blocked_pending h p hp
  exact ⟨h1, fun hc => inv_disjoint h p.1.ipv4_numeric hc h1⟩

/-- Witness for C10: after one send to the uncached address 5, the blocked
pair for 5 has a pending entry and no cache entry. -/
theorem C10_blocked_implies_pending_witness :
    ((⟨5⟩, 7) : Address × InternetDatagram).1.ipv4_numeric ∈
      mapKeys (send_datagram (mkInterface 1 ⟨2⟩) 7
        ⟨5⟩).waiting_arp_response_ip_addr_ ∧
    ((⟨5⟩, 7) : Address × InternetDatagram).1.ipv4_numeric ∉
      mapKeys (send_datagram (mkInterface 1 ⟨2⟩) 7 ⟨5⟩).arp_table_ :=
  C10_blocked_implies_pending _
    (Reachable.send 7 ⟨5⟩ (Reachable.construct 1 ⟨2⟩)) (⟨5⟩, 7) (by decide)
